import Mathlib

/-
Verification of the Boundary attack implementation (art/attacks/boundary.py)
against its natural-language specification.

Shallow embedding conventions:
* numpy float arrays are modelled as lists of rationals (`Sample := List ℚ`);
  the dtype cast `.astype(x.dtype)` is not observable at this level.
* the classifier is the external oracle of the spec: a function from a single
  sample to its arg-max label, plus the `clip_values` pair.
* Python `ValueError` (the spec's ConfigurationError) is modelled as
  `Except.error` carrying the message string.
* randomness (`np.random.RandomState().uniform(clip_min, clip_max, x.shape)`)
  is modelled by an abstract per-example stream `rand : ℕ → Sample` giving the
  draw of each trial; classifier-query counts are threaded explicitly so that
  "no query before the error" style claims are statable.
-/

/-- Sample: an n-dimensional numeric array, flattened to a list of rationals. -/
abbrev Sample := List ℚ

/-- Label: an integer class identifier (result of argmax over class scores). -/
abbrev Label := ℕ

/-- Classifier oracle: `predict` returns the arg-max label of the class scores
for one sample (the source always takes `np.argmax(..., axis=1)` immediately),
and `clip_values` is the valid input range `(clip_min, clip_max)`. -/
structure Classifier where
  predict : Sample → Label
  clip_values : ℚ × ℚ

/-- Attack configuration attributes of the `Boundary` object
(boundary.py:36-66).  `max_iter`, `sample_size`, `init_size` are Python ints,
modelled as ℤ (the `isinstance(..., int)` checks hold by typing). -/
structure BoundaryParams where
  targeted : Bool
  delta : ℚ
  epsilon : ℚ
  step_adapt : ℚ
  max_iter : ℤ
  sample_size : ℤ
  init_size : ℤ
deriving DecidableEq

/-- Keyword-argument configuration overrides: each recognized option either
absent (`none`) or supplied. -/
structure ParamUpdates where
  targeted : Option Bool
  delta : Option ℚ
  epsilon : Option ℚ
  step_adapt : Option ℚ
  max_iter : Option ℤ
  sample_size : Option ℤ
  init_size : Option ℤ
deriving DecidableEq

/-- Empty keyword set: no overrides. -/
def noUpdates : ParamUpdates := ⟨none, none, none, none, none, none, none⟩

/-- Modelled from the spec: the base class `Attack.set_params`
(art/attacks/attack.py, absent from src/) merges each provided recognized
configuration option into the object's attributes ("All settable
per-invocation, overriding construction-time defaults", spec section 6;
"dynamic keyword-argument configuration merging", spec section 9). -/
def applyUpdates (p : BoundaryParams) (u : ParamUpdates) : BoundaryParams :=
  { targeted := u.targeted.getD p.targeted
    delta := u.delta.getD p.delta
    epsilon := u.epsilon.getD p.epsilon
    step_adapt := u.step_adapt.getD p.step_adapt
    max_iter := u.max_iter.getD p.max_iter
    sample_size := u.sample_size.getD p.sample_size
    init_size := u.init_size.getD p.init_size }

/-- Attack-specific checks of Boundary.set_params (boundary.py:221-237), run
on the merged attribute state in source order; the first violated constraint
raises ValueError (modelled as `Except.error`). -/
def checkParams (q : BoundaryParams) : Except String BoundaryParams :=
  if q.max_iter ≤ 0 then
    Except.error "The number of iterations must be a positive integer."
  else if q.sample_size ≤ 0 then
    Except.error "The number of trials must be a positive integer."
  else if q.init_size ≤ 0 then
    Except.error "The number of trials must be a positive integer."
  else if q.epsilon ≤ 0 then
    Except.error "The initial step size for the step towards the target must be positive."
  else if q.delta ≤ 0 then
    Except.error "The initial step size for the orthogonal step must be positive."
  else if q.step_adapt ≤ 0 ∨ 1 ≤ q.step_adapt then
    Except.error "The adaptation factor must be in the range (0, 1)."
  else
    Except.ok q

/-- Boundary.set_params (boundary.py:199-239): merge the keyword arguments
into the attributes (via the base class `set_params`), then apply the
attack-specific checks; on success the mutated attribute state results. -/
def set_params (p : BoundaryParams) (u : ParamUpdates) :
    Except String BoundaryParams :=
  checkParams (applyUpdates p u)

/-- Domain constraints that `set_params` enforces (boundary.py:221-237). -/
def validParams (q : BoundaryParams) : Prop :=
  0 < q.max_iter ∧ 0 < q.sample_size ∧ 0 < q.init_size ∧
  0 < q.epsilon ∧ 0 < q.delta ∧ 0 < q.step_adapt ∧ q.step_adapt < 1

instance (q : BoundaryParams) : Decidable (validParams q) := by
  unfold validParams; infer_instance

lemma checkParams_ok_of_valid (q : BoundaryParams) (h : validParams q) :
    checkParams q = Except.ok q := by
  obtain ⟨h1, h2, h3, h4, h5, h6, h7⟩ := h
  unfold checkParams
  split_ifs with a1 a2 a3 a4 a5 a6 <;> first
  | rfl
  | (exfalso; rcases a6 with a6 | a6 <;> linarith)
  | (exfalso; linarith)

lemma checkParams_eq_ok (q r : BoundaryParams)
    (h : checkParams q = Except.ok r) : r = q ∧ validParams q := by
  unfold checkParams at h
  split_ifs at h with a1 a2 a3 a4 a5 a6
  push_neg at a1 a2 a3 a4 a5
  rw [not_or] at a6
  push_neg at a6
  exact ⟨(Except.ok.inj h).symm, a1, a2, a3, a4, a5, a6.1, a6.2⟩

lemma set_params_ok_of_valid (p : BoundaryParams) (u : ParamUpdates)
    (h : validParams (applyUpdates p u)) :
    set_params p u = Except.ok (applyUpdates p u) :=
  checkParams_ok_of_valid _ h

lemma set_params_eq_ok (p : BoundaryParams) (u : ParamUpdates)
    (q : BoundaryParams) (h : set_params p u = Except.ok q) :
    q = applyUpdates p u ∧ validParams (applyUpdates p u) :=
  checkParams_eq_ok _ _ h

lemma applyUpdates_noUpdates (p : BoundaryParams) :
    applyUpdates p noUpdates = p := rfl

/-- C2: every valid parameter assignment (positive `max_iter`, `sample_size`,
`init_size`, positive `delta` and `epsilon`, `step_adapt` strictly between 0
and 1) is accepted by `set_params`, with exactly the supplied values stored
(never clamped); every documented invalid value makes `set_params` fail with
a ConfigurationError (ValueError). -/
theorem set_params_validates (p : BoundaryParams) (u : ParamUpdates) :
    (validParams (applyUpdates p u) →
      set_params p u = Except.ok (applyUpdates p u)) ∧
    (¬ validParams (applyUpdates p u) →
      ∃ e, set_params p u = Except.error e) := by
  constructor
  · exact set_params_ok_of_valid p u
  · intro hbad
    cases hsp : set_params p u with
    | error e => exact ⟨e, rfl⟩
    | ok q => exact absurd (set_params_eq_ok p u q hsp).2 hbad

/-- Concrete instantiation of `set_params_validates`: the default
construction parameters are valid and accepted, while `step_adapt = 3/2`
(the spec's invalid-config scenario) is rejected. -/
theorem set_params_validates_wit :
    set_params ⟨true, mkRat 1 100, mkRat 1 100, mkRat 9 10, 100, 20, 100⟩ noUpdates =
      Except.ok (applyUpdates ⟨true, mkRat 1 100, mkRat 1 100, mkRat 9 10, 100, 20, 100⟩ noUpdates) ∧
    ∃ e, set_params ⟨true, mkRat 1 100, mkRat 1 100, mkRat 3 2, 100, 20, 100⟩ noUpdates =
      Except.error e :=
  ⟨(set_params_validates ⟨true, mkRat 1 100, mkRat 1 100, mkRat 9 10, 100, 20, 100⟩ noUpdates).1
      (by decide),
   (set_params_validates ⟨true, mkRat 1 100, mkRat 1 100, mkRat 3 2, 100, 20, 100⟩ noUpdates).2
      (by decide)⟩

/-- Adversarial-goal test shared by initialization and the walk
(boundary.py:176 for targeted, boundary.py:189 for untargeted): a predicted
label satisfies the goal when it equals the target label `y` (targeted) or
differs from the source prediction `y_p` (untargeted).  `y` is `Option`
because the source passes `y=None` in the untargeted branch
(boundary.py:112). -/
def adversarialAccept (targeted : Bool) (y : Option Label) (y_p : Label)
    (l : Label) : Bool :=
  if targeted then decide (some l = y) else decide (l ≠ y_p)

/-- Rejection-sampling loop of `_init_sample` (boundary.py:172-195):
trial `t` draws `rand t`, queries the classifier once on it, and accepts the
first draw whose label passes `accept`; the second component counts the
classifier queries issued.  Returns `none` after the fuel (init_size) runs
out. -/
def rejectionSearch (predict : Sample → Label) (accept : Label → Bool)
    (rand : ℕ → Sample) : ℕ → ℕ → Option Sample × ℕ
  | _, 0 => (none, 0)
  | t, n + 1 =>
    if accept (predict (rand t)) then (some (rand t), 1)
    else
      let r := rejectionSearch predict accept rand (t + 1) n
      (r.1, r.2 + 1)

/-- Boundary._init_sample (boundary.py:147-197).  The fresh per-call
`np.random.RandomState()` uniform draw over `[clip_min, clip_max]` cast to
`x.dtype` is modelled by the abstract trial stream `rand`; `x`, `clip_min`
and `clip_max` shape that stream in the source and are kept as arguments. -/
def _init_sample (p : BoundaryParams) (c : Classifier) (rand : ℕ → Sample)
    (x : Sample) (y : Option Label) (y_p : Label)
    (clip_min clip_max : ℚ) : Option Sample × ℕ :=
  if p.targeted then
    if y = some y_p then (none, 0)
    else
      rejectionSearch c.predict (adversarialAccept p.targeted y y_p) rand 0
        p.init_size.toNat
  else
    rejectionSearch c.predict (adversarialAccept p.targeted y y_p) rand 0
      p.init_size.toNat

lemma rejectionSearch_exhausted (predict : Sample → Label)
    (accept : Label → Bool) (rand : ℕ → Sample) :
    ∀ n t, (∀ j, j < n → accept (predict (rand (t + j))) = false) →
      rejectionSearch predict accept rand t n = (none, n) := by
  intro n
  induction n with
  | zero => intro t _; rfl
  | succ m ih =>
    intro t hall
    have h0 : accept (predict (rand t)) = false := by
      have := hall 0 (Nat.succ_pos m)
      simpa using this
    have hrec : rejectionSearch predict accept rand (t + 1) m = (none, m) := by
      apply ih
      intro j hj
      have := hall (j + 1) (Nat.succ_lt_succ hj)
      have harith : t + 1 + j = t + (j + 1) := by omega
      rw [harith]
      exact this
    simp [rejectionSearch, h0, hrec]

lemma rejectionSearch_first_success (predict : Sample → Label)
    (accept : Label → Bool) (rand : ℕ → Sample) :
    ∀ n t j0, j0 < n → accept (predict (rand (t + j0))) = true →
      (∀ j, j < j0 → accept (predict (rand (t + j))) = false) →
      rejectionSearch predict accept rand t n = (some (rand (t + j0)), j0 + 1) := by
  intro n
  induction n with
  | zero => intro t j0 h; omega
  | succ m ih =>
    intro t j0 hlt hacc hbefore
    cases j0 with
    | zero =>
      have h0 : accept (predict (rand t)) = true := by simpa using hacc
      simp [rejectionSearch, h0]
    | succ k =>
      have h0 : accept (predict (rand t)) = false := by
        have := hbefore 0 (Nat.succ_pos k)
        simpa using this
      have hrec :
          rejectionSearch predict accept rand (t + 1) m =
            (some (rand (t + (k + 1))), k + 1) := by
        have harith : t + 1 + k = t + (k + 1) := by omega
        rw [← harith]
        apply ih (t + 1) k (by omega)
        · rw [harith]; exact hacc
        · intro j hj
          have harith2 : t + 1 + j = t + (j + 1) := by omega
          rw [harith2]
          exact hbefore (j + 1) (Nat.succ_lt_succ hj)
      simp [rejectionSearch, h0, hrec]

lemma rejectionSearch_mem (predict : Sample → Label)
    (accept : Label → Bool) (rand : ℕ → Sample) :
    ∀ n t s q, rejectionSearch predict accept rand t n = (some s, q) →
      ∃ j, s = rand j := by
  intro n
  induction n with
  | zero => intro t s q h; simp [rejectionSearch] at h
  | succ m ih =>
    intro t s q h
    by_cases h0 : accept (predict (rand t)) = true
    · simp [rejectionSearch, h0] at h
      exact ⟨t, h.1.symm⟩
    · rw [Bool.not_eq_true] at h0
      simp [rejectionSearch, h0] at h
      exact ih (t + 1) s _ (Prod.ext h.1 rfl)

/-- C3: `_init_sample` performs rejection sampling with at most `init_size`
trials, one classifier query per trial, each trial drawing the next sample of
the uniform random stream; it returns the first draw whose predicted label
satisfies the goal (equals the target `y` when targeted, differs from `y_p`
when untargeted), together with one query per performed trial, and returns
`none` after `init_size` unsuccessful trials. -/
theorem init_sample_rejection_sampling (p : BoundaryParams) (c : Classifier)
    (rand : ℕ → Sample) (x : Sample) (y : Option Label) (y_p : Label)
    (clip_min clip_max : ℚ)
    (hne : ¬ (p.targeted = true ∧ y = some y_p)) :
    (∀ j0, j0 < p.init_size.toNat →
      adversarialAccept p.targeted y y_p (c.predict (rand j0)) = true →
      (∀ j, j < j0 → adversarialAccept p.targeted y y_p (c.predict (rand j)) = false) →
      _init_sample p c rand x y y_p clip_min clip_max = (some (rand j0), j0 + 1)) ∧
    ((∀ j, j < p.init_size.toNat →
        adversarialAccept p.targeted y y_p (c.predict (rand j)) = false) →
      _init_sample p c rand x y y_p clip_min clip_max =
        (none, p.init_size.toNat)) := by
  have hbody : _init_sample p c rand x y y_p clip_min clip_max =
      rejectionSearch c.predict (adversarialAccept p.targeted y y_p) rand 0
        p.init_size.toNat := by
    unfold _init_sample
    by_cases ht : p.targeted = true
    · have hy : ¬ y = some y_p := fun hy => hne ⟨ht, hy⟩
      simp [ht, hy]
    · rw [Bool.not_eq_true] at ht
      simp [ht]
  constructor
  · intro j0 hj0 hacc hbefore
    rw [hbody]
    have := rejectionSearch_first_success c.predict
      (adversarialAccept p.targeted y y_p) rand p.init_size.toNat 0 j0 hj0
      (by simpa using hacc) (by intro j hj; simpa using hbefore j hj)
    simpa using this
  · intro hall
    rw [hbody]
    exact rejectionSearch_exhausted c.predict
      (adversarialAccept p.targeted y y_p) rand p.init_size.toNat 0
      (by intro j hj; simpa using hall j hj)

/-- Concrete instantiation of `init_sample_rejection_sampling`: an untargeted
search with a two-trial budget whose second draw is the first adversarial
one is returned after exactly two queries. -/
theorem init_sample_rejection_sampling_wit :
    _init_sample ⟨false, 1, 1, mkRat 1 2, 1, 1, 2⟩
      ⟨fun s => s.headD 0 |>.num.toNat, (0, 1)⟩ (fun t => [(t : ℚ)])
      [] none 0 0 1 = (some [(1 : ℚ)], 2) := by
  have h := (init_sample_rejection_sampling ⟨false, 1, 1, mkRat 1 2, 1, 1, 2⟩
    ⟨fun s => s.headD 0 |>.num.toNat, (0, 1)⟩ (fun t => [(t : ℚ)])
    [] none 0 0 1 (by decide)).1 1 (by decide) (by decide)
    (by intro j hj; interval_cases j <;> decide)
  simpa using h

/-- C5: in a targeted attack whose current prediction already equals the
target label, `_init_sample` returns `None` immediately with zero classifier
queries; the query count distinguishes this vacuous outcome from the
search-exhausted `None`, which issues `init_size > 0` queries. -/
theorem init_sample_vacuous_targeted (p : BoundaryParams) (c : Classifier)
    (rand : ℕ → Sample) (x : Sample) (y : Option Label) (y_p : Label)
    (clip_min clip_max : ℚ) (ht : p.targeted = true) (hy : y = some y_p) :
    _init_sample p c rand x y y_p clip_min clip_max = (none, 0) ∧
    (0 < p.init_size →
      (_init_sample p c rand x y y_p clip_min clip_max).2 ≠ p.init_size.toNat) := by
  have hmain : _init_sample p c rand x y y_p clip_min clip_max = (none, 0) := by
    unfold _init_sample
    simp [ht, hy]
  refine ⟨hmain, fun hpos => ?_⟩
  rw [hmain]
  simp only []
  omega

/-- Concrete instantiation of `init_sample_vacuous_targeted`: target label 3
already predicted for the input, so no query is issued. -/
theorem init_sample_vacuous_targeted_wit :
    _init_sample ⟨true, 1, 1, mkRat 1 2, 1, 1, 2⟩
      ⟨fun _ => 3, (0, 1)⟩ (fun _ => []) [] (some 3) 3 0 1 = (none, 0) :=
  (init_sample_vacuous_targeted ⟨true, 1, 1, mkRat 1 2, 1, 1, 2⟩
    ⟨fun _ => 3, (0, 1)⟩ (fun _ => []) [] (some 3) 3 0 1 rfl rfl).1

/-- Projection of a sample back into the valid input range, elementwise
`min clip_max (max clip_min v)` (the spec's "projected back into
[clip_min, clip_max]", section 4.2). -/
def clipSample (lo hi : ℚ) (s : Sample) : Sample :=
  s.map (fun v => min hi (max lo v))

/-- Source-directed step (spec section 4.2, step 3): move from the current
adversarial point a fraction `e` of the way toward the original input. -/
def sourceStep (s x : Sample) (e : ℚ) : Sample :=
  List.zipWith (fun a b => a + e * (b - a)) s x

/-- Per-example transient search state of the walk (spec section 3,
SearchState): current adversarial sample and the two adaptive step sizes. -/
structure WalkState where
  curr : Sample
  delta : ℚ
  eps : ℚ

/-- Modelled from the spec: one round of `_attack` (the Boundary Walker),
which is called at boundary.py:143 but absent from src/.  Following spec
section 4.2: draw up to `sample_size` orthogonal candidates (the abstract
stream `ortho`, indexed by round and trial, scaled by the current delta),
project each into `[clip_min, clip_max]`, query the oracle on each; shrink
`delta` by `step_adapt` when fewer than half the candidates stay adversarial
and grow it otherwise (the spec leaves the exact target rate open, section 9);
from the best surviving candidate take a source-directed step of size `eps`,
clipped and queried, accepting it and growing `eps` on success, otherwise
keeping the candidate and shrinking `eps`; when no orthogonal candidate
survives, keep the previous sample and only adapt `delta`.  The second
component counts classifier queries. -/
def walkRound (predict : Sample → Label) (accept : Label → Bool)
    (ortho : ℕ → ℕ → Sample → ℚ → Sample) (x : Sample) (lo hi : ℚ)
    (sample_size : ℕ) (step_adapt : ℚ) (r : ℕ) (st : WalkState) :
    WalkState × ℕ :=
  let cands := (List.range sample_size).map
    (fun i => clipSample lo hi (ortho r i st.curr st.delta))
  let good := cands.filter (fun s => accept (predict s))
  let delta2 := if sample_size ≤ 2 * good.length then st.delta / step_adapt
    else st.delta * step_adapt
  match good.head? with
  | none => (⟨st.curr, delta2, st.eps⟩, sample_size)
  | some best =>
    let stepped := clipSample lo hi (sourceStep best x st.eps)
    if accept (predict stepped) then
      (⟨stepped, delta2, st.eps / step_adapt⟩, sample_size + 1)
    else
      (⟨best, delta2, st.eps * step_adapt⟩, sample_size + 1)

/-- Iteration of a round function over the remaining fuel, accumulating the
per-round classifier-query counts. -/
def attackIter (round : ℕ → WalkState → WalkState × ℕ) :
    ℕ → ℕ → WalkState → WalkState × ℕ
  | _, 0, st => (st, 0)
  | r, n + 1, st =>
    let s1 := round r st
    let s2 := attackIter round (r + 1) n s1.1
    (s2.1, s1.2 + s2.2)

/-- Modelled from the spec: `_attack` (the Boundary Walker), called at
boundary.py:143 but absent from src/.  Spec section 4.2: a state machine of
`max_iter` rounds starting from the initial adversarial sample with the
configured initial step sizes; after the budget is exhausted the current
sample is returned (no early-stop check). -/
def _attack (predict : Sample → Label) (accept : Label → Bool)
    (ortho : ℕ → ℕ → Sample → ℚ → Sample) (x : Sample) (lo hi : ℚ)
    (sample_size : ℕ) (step_adapt delta0 eps0 : ℚ) (max_iter : ℕ)
    (initial : Sample) : Sample × ℕ :=
  let res := attackIter
    (walkRound predict accept ortho x lo hi sample_size step_adapt) 0
    max_iter ⟨initial, delta0, eps0⟩
  (res.1.curr, res.2)

/-- Boundary._perturb (boundary.py:121-145): fetch the clip range, search for
an initial adversarial sample, return the input unchanged when that fails,
otherwise run the boundary walk from it.  The second component counts the
single-sample classifier queries issued for this example. -/
def _perturb (p : BoundaryParams) (c : Classifier) (rand : ℕ → Sample)
    (ortho : ℕ → ℕ → Sample → ℚ → Sample) (x : Sample) (y : Option Label)
    (y_p : Label) : Sample × ℕ :=
  let clip_min := c.clip_values.1
  let clip_max := c.clip_values.2
  let r := _init_sample p c rand x y y_p clip_min clip_max
  match r.1 with
  | none => (x, r.2)
  | some s =>
    let a := _attack c.predict (adversarialAccept p.targeted y y_p) ortho x
      clip_min clip_max p.sample_size.toNat p.step_adapt p.delta p.epsilon
      p.max_iter.toNat s
    (a.1, r.2 + a.2)

lemma attackIter_queries_le (round : ℕ → WalkState → WalkState × ℕ) (B : ℕ)
    (hb : ∀ r st, (round r st).2 ≤ B) :
    ∀ n r st, (attackIter round r n st).2 ≤ n * B := by
  intro n
  induction n with
  | zero => intro r st; simp [attackIter]
  | succ m ih =>
    intro r st
    have h1 := hb r st
    have h2 := ih (r + 1) (round r st).1
    simp only [attackIter]
    calc (round r st).2 + (attackIter round (r + 1) m (round r st).1).2
        ≤ B + m * B := Nat.add_le_add h1 h2
      _ = (m + 1) * B := by ring

lemma attackIter_curr_fixed (round : ℕ → WalkState → WalkState × ℕ)
    (hc : ∀ r st, ((round r st).1).curr = st.curr) :
    ∀ n r st, ((attackIter round r n st).1).curr = st.curr := by
  intro n
  induction n with
  | zero => intro r st; simp [attackIter]
  | succ m ih =>
    intro r st
    simp only [attackIter]
    rw [ih (r + 1) (round r st).1, hc r st]

lemma walkRound_queries_le (predict : Sample → Label) (accept : Label → Bool)
    (ortho : ℕ → ℕ → Sample → ℚ → Sample) (x : Sample) (lo hi : ℚ)
    (sample_size : ℕ) (step_adapt : ℚ) (r : ℕ) (st : WalkState) :
    (walkRound predict accept ortho x lo hi sample_size step_adapt r st).2 ≤
      sample_size + 1 := by
  unfold walkRound
  cases h : (((List.range sample_size).map
      (fun i => clipSample lo hi (ortho r i st.curr st.delta))).filter
      (fun s => accept (predict s))).head? with
  | none => simp [h]
  | some best => simp [h]; split_ifs <;> simp

lemma walkRound_curr_fixed_of_never (predict : Sample → Label)
    (accept : Label → Bool) (ortho : ℕ → ℕ → Sample → ℚ → Sample)
    (x : Sample) (lo hi : ℚ) (sample_size : ℕ) (step_adapt : ℚ)
    (hnever : ∀ s, accept (predict s) = false) (r : ℕ) (st : WalkState) :
    ((walkRound predict accept ortho x lo hi sample_size step_adapt r st).1).curr
      = st.curr := by
  unfold walkRound
  have hfil : (((List.range sample_size).map
      (fun i => clipSample lo hi (ortho r i st.curr st.delta))).filter
      (fun s => accept (predict s))) = [] := by
    apply List.filter_eq_nil.mpr
    intro a _
    simp [hnever a]
  simp [hfil]

/-- C7: the Boundary Walker is total — for every initial adversarial sample
it returns a sample after exhausting its `max_iter` rounds, issuing at most
`max_iter * (sample_size + 1)` classifier queries, and in the worst case
(no candidate ever remains adversarial) it returns the initial sample
unchanged. -/
theorem attack_walk_total (predict : Sample → Label) (accept : Label → Bool)
    (ortho : ℕ → ℕ → Sample → ℚ → Sample) (x : Sample) (lo hi : ℚ)
    (sample_size : ℕ) (step_adapt delta0 eps0 : ℚ) (max_iter : ℕ)
    (initial : Sample) :
    (_attack predict accept ortho x lo hi sample_size step_adapt delta0 eps0
        max_iter initial).2 ≤ max_iter * (sample_size + 1) ∧
    ((∀ s, accept (predict s) = false) →
      (_attack predict accept ortho x lo hi sample_size step_adapt delta0 eps0
        max_iter initial).1 = initial) := by
  constructor
  · exact attackIter_queries_le _ (sample_size + 1)
      (fun r st => walkRound_queries_le predict accept ortho x lo hi
        sample_size step_adapt r st) max_iter 0 ⟨initial, delta0, eps0⟩
  · intro hnever
    exact attackIter_curr_fixed _
      (walkRound_curr_fixed_of_never predict accept ortho x lo hi sample_size
        step_adapt hnever) max_iter 0 ⟨initial, delta0, eps0⟩

/-- Concrete instantiation of `attack_walk_total`: with a classifier that
never labels any sample adversarial, a two-round walk returns the initial
sample unchanged. -/
theorem attack_walk_total_wit :
    (_attack (fun _ => 0) (fun _ => false) (fun _ _ s _ => s) [0] 0 1 1
      (mkRat 1 2) 1 1 2 [mkRat 1 2]).1 = [mkRat 1 2] :=
  (attack_walk_total (fun _ => 0) (fun _ => false) (fun _ _ s _ => s) [0] 0 1
    1 (mkRat 1 2) 1 1 2 [mkRat 1 2]).2 (fun _ => rfl)

/-- Batched classifier query followed by the arg-max over classes
(`np.argmax(self.classifier.predict(x), axis=1)`, boundary.py:98/116). -/
def batchPredict (c : Classifier) (xs : List Sample) : List Label :=
  xs.map c.predict

/-- Keyword arguments of `generate` (boundary.py:93-95): the optional target
label batch `y` (popped from the kwargs) and the configuration overrides
forwarded to `set_params`. -/
structure GenKwargs where
  y : Option (List Label)
  updates : ParamUpdates

/-- Body of the per-example loop of `generate` (boundary.py:108-114): example
`i` is perturbed from its original value with the target label `y[ind]` when
targeted (`None` otherwise) and its original prediction `preds[ind]`.  The
source's per-example fresh random state and candidate draws are the slices
`rand i` and `ortho i`.  Out-of-range indexing (`y[ind]` with a short label
batch) is a Python IndexError; the `getD` defaults are never reached in the
theorems, which fix the lengths. -/
def perturbAt (p : BoundaryParams) (c : Classifier) (rand : ℕ → ℕ → Sample)
    (ortho : ℕ → ℕ → ℕ → Sample → ℚ → Sample) (x : List Sample)
    (yb : Option (List Label)) (i : ℕ) : Sample × ℕ :=
  _perturb p c (rand i) (ortho i) ((x.get? i).getD [])
    (if p.targeted then (yb.getD []).get? i else none)
    (((batchPredict c x).get? i).getD 0)

/-- Boundary.generate (boundary.py:68-119): apply the keyword overrides via
`set_params` (which may raise before any query), predict the original batch
(one batched classifier call), raise when targeted and no `y` was supplied,
perturb each example, predict the perturbed batch, and report the success
rate `np.sum(preds != preds_adv) / x.shape[0]`.  The result carries the
mutated attribute state, the adversarial batch and the reported rate; the
second component counts classifier `predict` calls (the two batched calls
plus the single-sample calls of each example's search). -/
def generate (p : BoundaryParams) (c : Classifier) (rand : ℕ → ℕ → Sample)
    (ortho : ℕ → ℕ → ℕ → Sample → ℚ → Sample) (x : List Sample)
    (kw : GenKwargs) :
    Except String (BoundaryParams × List Sample × ℚ) × ℕ :=
  match set_params p kw.updates with
  | Except.error e => (Except.error e, 0)
  | Except.ok p2 =>
    let preds := batchPredict c x
    if p2.targeted = true ∧ kw.y = none then
      (Except.error "Target labels `y` need to be provided for a targeted attack.", 1)
    else
      let results := (List.range x.length).map (perturbAt p2 c rand ortho x kw.y)
      let x_adv := results.map Prod.fst
      let preds_adv := batchPredict c x_adv
      let rate := (List.zipWith (fun a b => if a = b then (0 : ℚ) else 1)
        preds preds_adv).sum / (x.length : ℚ)
      (Except.ok (p2, x_adv, rate), 1 + (results.map Prod.snd).sum + 1)

lemma generate_ok_elim (p : BoundaryParams) (c : Classifier)
    (rand : ℕ → ℕ → Sample) (ortho : ℕ → ℕ → ℕ → Sample → ℚ → Sample)
    (x : List Sample) (kw : GenKwargs) (p2 : BoundaryParams)
    (out : List Sample) (r : ℚ)
    (h : (generate p c rand ortho x kw).1 = Except.ok (p2, out, r)) :
    set_params p kw.updates = Except.ok p2 ∧
    ¬ (p2.targeted = true ∧ kw.y = none) ∧
    out = (List.range x.length).map
      (fun i => (perturbAt p2 c rand ortho x kw.y i).1) ∧
    r = (List.zipWith (fun a b => if a = b then (0 : ℚ) else 1)
      (batchPredict c x) (batchPredict c out)).sum / (x.length : ℚ) := by
  unfold generate at h
  cases hsp : set_params p kw.updates with
  | error e => rw [hsp] at h; simp at h
  | ok q =>
    rw [hsp] at h
    simp only [] at h
    by_cases hcond : q.targeted = true ∧ kw.y = none
    · rw [if_pos hcond] at h; simp at h
    · rw [if_neg hcond] at h
      simp only [Except.ok.injEq, Prod.mk.injEq] at h
      obtain ⟨hq, hout, hr⟩ := h
      subst hq
      refine ⟨rfl, hcond, ?_, ?_⟩
      · rw [← hout, List.map_map]
        rfl
      · rw [← hr, ← hout]

/-- C1 counterexample: with the default configuration, a targeted `generate`
call without target labels does fail (ValueError), but only after one
classifier `predict` call — the batch prediction of the original inputs at
boundary.py:98 precedes the check at boundary.py:101 — so the error is not
raised before any classifier query. -/
theorem generate_targeted_missing_y_counterexample :
    (generate ⟨true, mkRat 1 100, mkRat 1 100, mkRat 9 10, 100, 20, 100⟩
      ⟨fun _ => 0, (0, 1)⟩ (fun _ _ => [0]) (fun _ _ _ s _ => s) [[0]]
      ⟨none, noUpdates⟩).1 =
      Except.error "Target labels `y` need to be provided for a targeted attack." ∧
    (generate ⟨true, mkRat 1 100, mkRat 1 100, mkRat 9 10, 100, 20, 100⟩
      ⟨fun _ => 0, (0, 1)⟩ (fun _ _ => [0]) (fun _ _ _ s _ => s) [[0]]
      ⟨none, noUpdates⟩).2 ≠ 0 := by
  have hsp : set_params ⟨true, mkRat 1 100, mkRat 1 100, mkRat 9 10, 100, 20, 100⟩
      noUpdates = Except.ok ⟨true, mkRat 1 100, mkRat 1 100, mkRat 9 10, 100, 20, 100⟩ := rfl
  constructor
  · unfold generate
    rw [hsp]
    simp
  · unfold generate
    rw [hsp]
    simp

/-- C1 amended: whenever the overrides validate to a targeted configuration
and no target-label batch `y` is supplied, `generate` fails with the
ConfigurationError (ValueError), after exactly one classifier query — the
batched prediction of the original inputs — and before any per-example
search query. -/
theorem generate_targeted_missing_y_after_one_query (p : BoundaryParams)
    (c : Classifier) (rand : ℕ → ℕ → Sample)
    (ortho : ℕ → ℕ → ℕ → Sample → ℚ → Sample) (x : List Sample)
    (u : ParamUpdates) (p2 : BoundaryParams)
    (hsp : set_params p u = Except.ok p2) (ht : p2.targeted = true) :
    generate p c rand ortho x ⟨none, u⟩ =
      (Except.error "Target labels `y` need to be provided for a targeted attack.", 1) := by
  unfold generate
  rw [hsp]
  simp [ht]

/-- Concrete instantiation of `generate_targeted_missing_y_after_one_query`. -/
theorem generate_targeted_missing_y_after_one_query_wit :
    generate ⟨true, 1, 1, mkRat 1 2, 1, 1, 1⟩ ⟨fun _ => 0, (0, 1)⟩
      (fun _ _ => [0]) (fun _ _ _ s _ => s) [[0], [1]] ⟨none, noUpdates⟩ =
      (Except.error "Target labels `y` need to be provided for a targeted attack.", 1) :=
  generate_targeted_missing_y_after_one_query ⟨true, 1, 1, mkRat 1 2, 1, 1, 1⟩
    ⟨fun _ => 0, (0, 1)⟩ (fun _ _ => [0]) (fun _ _ _ s _ => s) [[0], [1]]
    noUpdates ⟨true, 1, 1, mkRat 1 2, 1, 1, 1⟩ rfl rfl

/-- Tiny untargeted configuration used by the concrete instantiations. -/
def pW : BoundaryParams := ⟨false, 1, 1, mkRat 1 2, 1, 1, 1⟩

/-- Constant classifier used by the concrete instantiations. -/
def cW : Classifier := ⟨fun _ => 0, (0, 1)⟩

/-- One-example batch used by the concrete instantiations. -/
def xW : List Sample := [[mkRat 1 2]]

/-- Constant random stream used by the concrete instantiations. -/
def randW : ℕ → ℕ → Sample := fun _ _ => [mkRat 1 2]

/-- Trivial orthogonal-perturbation stream used by the concrete
instantiations. -/
def orthoW : ℕ → ℕ → ℕ → Sample → ℚ → Sample := fun _ _ _ s _ => s

lemma generateW_eval :
    (generate pW cW randW orthoW xW ⟨none, noUpdates⟩).1 =
      Except.ok (pW, xW, 0) := by
  have hsp : set_params pW (GenKwargs.mk none noUpdates).updates =
      Except.ok pW := rfl
  unfold generate
  rw [hsp]
  norm_num [pW, cW, xW, randW, orthoW, batchPredict, perturbAt, _perturb,
    _init_sample, rejectionSearch, adversarialAccept, List.range_succ,
    Function.comp, List.get?, List.zipWith]

/-- C4: whenever the initializer comes back empty for an example (vacuous
targeted case or trial exhaustion), the batch entry that `generate` returns
for that example is the corresponding input sample unchanged. -/
theorem generate_keeps_input_when_init_none (p : BoundaryParams)
    (c : Classifier) (rand : ℕ → ℕ → Sample)
    (ortho : ℕ → ℕ → ℕ → Sample → ℚ → Sample) (x : List Sample)
    (kw : GenKwargs) (p2 : BoundaryParams) (out : List Sample) (r : ℚ)
    (h : (generate p c rand ortho x kw).1 = Except.ok (p2, out, r))
    (i : ℕ) (hi : i < x.length)
    (hnone : (_init_sample p2 c (rand i) ((x.get? i).getD [])
      (if p2.targeted then (kw.y.getD []).get? i else none)
      (((batchPredict c x).get? i).getD 0)
      c.clip_values.1 c.clip_values.2).1 = none) :
    out.get? i = x.get? i := by
  obtain ⟨-, -, hout, -⟩ := generate_ok_elim p c rand ortho x kw p2 out r h
  rw [hout, List.get?_map, List.get?_range hi]
  have hpert : (perturbAt p2 c rand ortho x kw.y i).1 = (x.get? i).getD [] := by
    unfold perturbAt _perturb
    simp only []
    rw [hnone]
  rw [Option.map_some', hpert]
  cases hx : x.get? i with
  | none =>
    exfalso
    rw [List.get?_eq_none] at hx
    omega
  | some xi => simp

/-- Concrete instantiation of `generate_keeps_input_when_init_none`: the
constant classifier never yields an adversarial draw, the initializer
exhausts its single trial, and the output entry equals the input. -/
theorem generate_keeps_input_when_init_none_wit :
    xW.get? 0 = xW.get? 0 := by
  have h := generate_keeps_input_when_init_none pW cW randW orthoW xW
    ⟨none, noUpdates⟩ pW xW 0 generateW_eval 0 (by norm_num [xW])
    (by norm_num [pW, cW, xW, randW, batchPredict, _init_sample,
      rejectionSearch, adversarialAccept])
  exact h

/-- Elementwise range invariant of the spec (section 8): every element of the
sample lies within `[lo, hi]`. -/
def InBounds (lo hi : ℚ) (s : Sample) : Prop :=
  ∀ v ∈ s, lo ≤ v ∧ v ≤ hi

lemma clipSample_inBounds (lo hi : ℚ) (hle : lo ≤ hi) (s : Sample) :
    InBounds lo hi (clipSample lo hi s) := by
  intro v hv
  unfold clipSample at hv
  rw [List.mem_map] at hv
  obtain ⟨w, -, hw⟩ := hv
  subst hw
  constructor
  · exact le_min hle (le_max_left lo w)
  · exact min_le_left hi _

lemma walkRound_curr_inBounds (predict : Sample → Label)
    (accept : Label → Bool) (ortho : ℕ → ℕ → Sample → ℚ → Sample)
    (x : Sample) (lo hi : ℚ) (hle : lo ≤ hi) (sample_size : ℕ)
    (step_adapt : ℚ) (r : ℕ) (st : WalkState)
    (hst : InBounds lo hi st.curr) :
    InBounds lo hi
      ((walkRound predict accept ortho x lo hi sample_size step_adapt r st).1).curr := by
  unfold walkRound
  cases hh : (((List.range sample_size).map
      (fun i => clipSample lo hi (ortho r i st.curr st.delta))).filter
      (fun s => accept (predict s))).head? with
  | none => simpa [hh] using hst
  | some best =>
    have hbest : InBounds lo hi best := by
      have hmem := List.mem_of_mem_filter (List.mem_of_mem_head? hh)
      rw [List.mem_map] at hmem
      obtain ⟨i, -, hi2⟩ := hmem
      rw [← hi2]
      exact clipSample_inBounds lo hi hle _
    by_cases hacc :
        accept (predict (clipSample lo hi (sourceStep best x st.eps))) = true
    · simpa [hh, hacc] using clipSample_inBounds lo hi hle (sourceStep best x st.eps)
    · rw [Bool.not_eq_true] at hacc
      simpa [hh, hacc] using hbest

lemma attackIter_curr_preserves (round : ℕ → WalkState → WalkState × ℕ)
    (P : Sample → Prop)
    (hr : ∀ r st, P st.curr → P (((round r st).1).curr)) :
    ∀ n r st, P st.curr → P (((attackIter round r n st).1).curr) := by
  intro n
  induction n with
  | zero => intro r st h; simpa [attackIter] using h
  | succ m ih =>
    intro r st h
    simp only [attackIter]
    exact ih (r + 1) (round r st).1 (hr r st h)

lemma perturb_inBounds (p : BoundaryParams) (c : Classifier)
    (rand : ℕ → Sample) (ortho : ℕ → ℕ → Sample → ℚ → Sample) (x : Sample)
    (y : Option Label) (y_p : Label) (hle : c.clip_values.1 ≤ c.clip_values.2)
    (hx : InBounds c.clip_values.1 c.clip_values.2 x)
    (hrand : ∀ t, InBounds c.clip_values.1 c.clip_values.2 (rand t)) :
    InBounds c.clip_values.1 c.clip_values.2
      (_perturb p c rand ortho x y y_p).1 := by
  unfold _perturb
  cases hinit : (_init_sample p c rand x y y_p c.clip_values.1
      c.clip_values.2).1 with
  | none => simpa [hinit] using hx
  | some s =>
    have hs : InBounds c.clip_values.1 c.clip_values.2 s := by
      unfold _init_sample at hinit
      by_cases ht : p.targeted = true
      · by_cases hy : y = some y_p
        · simp [ht, hy] at hinit
        · simp only [ht, if_true, if_neg hy] at hinit
          obtain ⟨j, hj⟩ := rejectionSearch_mem c.predict _ rand _ 0 s _
            (Prod.ext hinit rfl)
          rw [hj]; exact hrand j
      · rw [Bool.not_eq_true] at ht
        simp only [ht, Bool.false_eq_true, if_false] at hinit
        obtain ⟨j, hj⟩ := rejectionSearch_mem c.predict _ rand _ 0 s _
          (Prod.ext hinit rfl)
        rw [hj]; exact hrand j
    simp only [hinit]
    unfold _attack
    exact attackIter_curr_preserves _
      (InBounds c.clip_values.1 c.clip_values.2)
      (fun r st hst => walkRound_curr_inBounds c.predict _ ortho x _ _ hle _
        p.step_adapt r st hst)
      p.max_iter.toNat 0 ⟨s, p.delta, p.epsilon⟩ hs

/-- C6: provided the inputs respect the classifier's clip range (the Sample
data-model invariant, spec section 3) — which also covers the entries
returned unchanged on initialization failure — every element of every sample
in the batch returned by `generate` lies within `[clip_min, clip_max]`:
random seeds are drawn inside the range and every walk candidate is
projected back into it. -/
theorem generate_output_within_clip_bounds (p : BoundaryParams)
    (c : Classifier) (rand : ℕ → ℕ → Sample)
    (ortho : ℕ → ℕ → ℕ → Sample → ℚ → Sample) (x : List Sample)
    (kw : GenKwargs) (p2 : BoundaryParams) (out : List Sample) (r : ℚ)
    (hle : c.clip_values.1 ≤ c.clip_values.2)
    (hx : ∀ s ∈ x, InBounds c.clip_values.1 c.clip_values.2 s)
    (hrand : ∀ i t, InBounds c.clip_values.1 c.clip_values.2 (rand i t))
    (h : (generate p c rand ortho x kw).1 = Except.ok (p2, out, r)) :
    ∀ s ∈ out, InBounds c.clip_values.1 c.clip_values.2 s := by
  obtain ⟨-, -, hout, -⟩ := generate_ok_elim p c rand ortho x kw p2 out r h
  intro s hs
  rw [hout, List.mem_map] at hs
  obtain ⟨i, hi, hsi⟩ := hs
  rw [List.mem_range] at hi
  rw [← hsi]
  apply perturb_inBounds _ _ _ _ _ _ _ hle
  · cases hx2 : x.get? i with
    | none => intro v hv; simp at hv
    | some xi =>
      have hmem : xi ∈ x := List.get?_mem hx2
      simpa [hx2] using hx xi hmem
  · exact hrand i

/-- Concrete instantiation of `generate_output_within_clip_bounds`. -/
theorem generate_output_within_clip_bounds_wit :
    InBounds 0 1 [mkRat 1 2] := by
  have hx : ∀ s ∈ xW, InBounds cW.clip_values.1 cW.clip_values.2 s := by
    intro s hs
    simp only [xW, List.mem_singleton] at hs
    subst hs
    intro v hv
    simp only [List.mem_singleton] at hv
    subst hv
    constructor <;> decide
  have hrand : ∀ i t, InBounds cW.clip_values.1 cW.clip_values.2 (randW i t) := by
    intro i t v hv
    simp only [randW, List.mem_singleton] at hv
    subst hv
    constructor <;> decide
  have h := generate_output_within_clip_bounds pW cW randW orthoW xW
    ⟨none, noUpdates⟩ pW xW 0 (by simp [cW]) hx hrand generateW_eval
    [mkRat 1 2] (by simp [xW])
  simpa [cW] using h

/-- C8: every recognized configuration option — `targeted`, `delta`,
`epsilon`, `step_adapt`, `max_iter`, `sample_size` and `init_size` — that is
passed as a keyword argument of `generate` overrides the construction-time
value for that run: the configuration a successful call runs with (and
returns as attribute state) carries exactly the supplied values. -/
theorem generate_per_call_overrides (p : BoundaryParams) (c : Classifier)
    (rand : ℕ → ℕ → Sample) (ortho : ℕ → ℕ → ℕ → Sample → ℚ → Sample)
    (x : List Sample) (yb : Option (List Label)) (u : ParamUpdates)
    (p2 : BoundaryParams) (out : List Sample) (r : ℚ)
    (h : (generate p c rand ortho x ⟨yb, u⟩).1 = Except.ok (p2, out, r)) :
    (∀ v, u.targeted = some v → p2.targeted = v) ∧
    (∀ v, u.delta = some v → p2.delta = v) ∧
    (∀ v, u.epsilon = some v → p2.epsilon = v) ∧
    (∀ v, u.step_adapt = some v → p2.step_adapt = v) ∧
    (∀ v, u.max_iter = some v → p2.max_iter = v) ∧
    (∀ v, u.sample_size = some v → p2.sample_size = v) ∧
    (∀ v, u.init_size = some v → p2.init_size = v) := by
  obtain ⟨hsp, -, -, -⟩ := generate_ok_elim p c rand ortho x ⟨yb, u⟩ p2 out r h
  have hp2 : p2 = applyUpdates p u := (set_params_eq_ok p u p2 hsp).1
  subst hp2
  refine ⟨?_, ?_, ?_, ?_, ?_, ?_, ?_⟩ <;>
    (intro v hv; simp [applyUpdates, hv])

/-- Delta override used by the concrete instantiation of the per-call
override theorem. -/
def uDeltaW : ParamUpdates := ⟨none, some 2, none, none, none, none, none⟩

/-- The tiny configuration after the delta override. -/
def pW2 : BoundaryParams := ⟨false, 2, 1, mkRat 1 2, 1, 1, 1⟩

lemma generateW2_eval :
    (generate pW cW randW orthoW xW ⟨none, uDeltaW⟩).1 =
      Except.ok (pW2, xW, 0) := by
  have hsp : set_params pW (GenKwargs.mk none uDeltaW).updates =
      Except.ok pW2 := rfl
  unfold generate
  rw [hsp]
  norm_num [pW2, cW, xW, randW, orthoW, batchPredict, perturbAt, _perturb,
    _init_sample, rejectionSearch, adversarialAccept, List.range_succ,
    Function.comp, List.get?, List.zipWith]

/-- Concrete instantiation of `generate_per_call_overrides`: a `delta = 2`
keyword argument makes the run use `delta = 2`. -/
theorem generate_per_call_overrides_wit : pW2.delta = 2 :=
  (generate_per_call_overrides pW cW randW orthoW xW none uDeltaW pW2 xW 0
    generateW2_eval).2.1 2 rfl

lemma indicatorSum_eq_countTrue (as bs : List Label) :
    (List.zipWith (fun a b => if a = b then (0 : ℚ) else 1) as bs).sum =
      (((List.zipWith (fun a b => decide (a ≠ b)) as bs).count true : ℕ) : ℚ) := by
  induction as generalizing bs with
  | nil => simp
  | cons a as ih =>
    cases bs with
    | nil => simp
    | cons b bs =>
      by_cases hab : a = b
      · simp [hab, ih bs, List.count_cons]
      · simp only [List.zipWith_cons_cons, if_neg hab, List.sum_cons, ih bs,
          List.count_cons]
        simp [hab, add_comm]

/-- C9: the success rate that a successful `generate` call reports equals the
fraction of examples whose final predicted label differs from their original
predicted label, and the returned adversarial batch is fully determined by
the per-example searches — the report is an observability signal that does
not feed back into the output. -/
theorem generate_success_rate_report (p : BoundaryParams) (c : Classifier)
    (rand : ℕ → ℕ → Sample) (ortho : ℕ → ℕ → ℕ → Sample → ℚ → Sample)
    (x : List Sample) (kw : GenKwargs) (p2 : BoundaryParams)
    (out : List Sample) (r : ℚ)
    (h : (generate p c rand ortho x kw).1 = Except.ok (p2, out, r)) :
    r = (((List.zipWith (fun a b => decide (a ≠ b)) (batchPredict c x)
        (batchPredict c out)).count true : ℕ) : ℚ) / (x.length : ℚ) ∧
    out = (List.range x.length).map
      (fun i => (perturbAt p2 c rand ortho x kw.y i).1) := by
  obtain ⟨-, -, hout, hr⟩ := generate_ok_elim p c rand ortho x kw p2 out r h
  refine ⟨?_, hout⟩
  rw [hr, indicatorSum_eq_countTrue]

/-- Concrete instantiation of `generate_success_rate_report`: the returned
batch is the per-example perturbation map. -/
theorem generate_success_rate_report_wit :
    xW = (List.range xW.length).map
      (fun i => (perturbAt pW cW randW orthoW xW (none : Option (List Label)) i).1) :=
  (generate_success_rate_report pW cW randW orthoW xW ⟨none, noUpdates⟩ pW xW
    0 generateW_eval).2

/-- C10: the keyword overrides of `generate` are not call-scoped — the call
mutates the attack object's configuration via `set_params`, the mutated
state is exactly what the call returns, it revalidates unchanged, and every
subsequent `generate` call with no overrides runs with (and returns) that
last overridden configuration rather than the construction-time one. -/
theorem generate_overrides_persist (p : BoundaryParams) (c : Classifier)
    (rand : ℕ → ℕ → Sample) (ortho : ℕ → ℕ → ℕ → Sample → ℚ → Sample)
    (x : List Sample) (kw : GenKwargs) (p2 : BoundaryParams)
    (out : List Sample) (r : ℚ)
    (h : (generate p c rand ortho x kw).1 = Except.ok (p2, out, r)) :
    set_params p kw.updates = Except.ok p2 ∧
    set_params p2 noUpdates = Except.ok p2 ∧
    ∀ c2 rand2 ortho2 x2 y2 p3 out2 r2,
      (generate p2 c2 rand2 ortho2 x2 ⟨y2, noUpdates⟩).1 =
        Except.ok (p3, out2, r2) → p3 = p2 := by
  obtain ⟨hsp, -, -, -⟩ := generate_ok_elim p c rand ortho x kw p2 out r h
  have hval := set_params_eq_ok p kw.updates p2 hsp
  have hvalid : validParams p2 := by rw [hval.1]; exact hval.2
  have hsp2 : set_params p2 noUpdates = Except.ok p2 := by
    unfold set_params
    rw [applyUpdates_noUpdates]
    exact checkParams_ok_of_valid p2 hvalid
  refine ⟨hsp, hsp2, ?_⟩
  intro c2 rand2 ortho2 x2 y2 p3 out2 r2 h2
  obtain ⟨hsp3, -, -, -⟩ := generate_ok_elim p2 c2 rand2 ortho2 x2
    ⟨y2, noUpdates⟩ p3 out2 r2 h2
  have hsp3b : set_params p2 noUpdates = Except.ok p3 := hsp3
  rw [hsp2] at hsp3b
  exact (Except.ok.inj hsp3b).symm

/-- Concrete instantiation of `generate_overrides_persist`: the state a call
returns revalidates unchanged for the next call. -/
theorem generate_overrides_persist_wit :
    set_params pW noUpdates = Except.ok pW :=
  (generate_overrides_persist pW cW randW orthoW xW ⟨none, noUpdates⟩ pW xW 0
    generateW_eval).2.1
